import Mathlib

/-!
Verification of the burger-shop order ledger contract (src/lib.rs).

The contract module `file_store` stores paid orders in two views: an
insertion-ordered vector `orders : Vec<(u32, Order)>` and a map
`orders_mapping : Mapping<u32, Order>`.  The single mutating message is
`take_order_and_payment`; `get_single_order` and `get_orders` are read-only.

Shallow embedding conventions:
- `u128` (the chain `Balance`) is `Nat` with explicit `% 2 ^ 128` at each
  wrapping operation (`wrapping_add`, `wrapping_mul`).
- `u32` casts (`orders.len() as u32`) become `% 2 ^ 32`.
- `AccountId` is `Nat` (opaque handle, only compared for equality).
- An `assert!` / `.expect` failure (a panic, which traps the call and
  reverts all state) is the `Outcome.trap` constructor, tagged with the
  panic site; returning `Err(e)` is `Outcome.err e`.
- Ambient environment data (`caller`, `account_id`, `transferred_value`)
  and the success of `env().transfer` are explicit parameters.
- Performed balance transfers and emitted events are returned as lists.
-/

namespace FileStoreContract

abbrev AccountId := Nat

abbrev Balance := Nat

/-- Modulus of the 128-bit `Balance` type. -/
def U128_MOD : Nat := 2 ^ 128

/-- Modulus of `u32`, the order-id type. -/
def U32_MOD : Nat := 2 ^ 32

/-- Embeds `enum BurgerMenu` (src/lib.rs lines 47-51). -/
inductive BurgerMenu
  | CheeseBurger
  | ChickenBurger
  | VeggieBurger
  deriving DecidableEq

/-- Embeds `BurgerMenu::price` (src/lib.rs lines 214-222). -/
def BurgerMenu.price : BurgerMenu → Balance
  | .CheeseBurger => 12
  | .VeggieBurger => 10
  | .ChickenBurger => 15

/-- Embeds `struct FoodItem` (src/lib.rs lines 37-40); `amount` is a `u32`. -/
structure FoodItem where
  burger_menu : BurgerMenu
  amount : Nat
  deriving DecidableEq

/-- Embeds `FoodItem::price` (src/lib.rs lines 198-212): per-kind unit price
times the amount, with `wrapping_mul` on `u128`.  All three match arms
perform the same computation on `self.burger_menu`. -/
def FoodItem.price (item : FoodItem) : Balance :=
  (item.burger_menu.price * item.amount) % U128_MOD

/-- Embeds `struct Order` (src/lib.rs lines 24-30). -/
structure Order where
  list_of_items : List FoodItem
  customer : AccountId
  total_price : Balance
  paid : Bool
  order_id : Nat
  deriving DecidableEq

/-- Embeds `Order::total_price` (src/lib.rs lines 189-195): a running
`wrapping_add` over the item prices, starting from 0. -/
def totalPrice (list_of_items : List FoodItem) : Balance :=
  list_of_items.foldl (fun total item => (total + item.price) % U128_MOD) 0

/-- Embeds `Order::new` (src/lib.rs lines 178-187). -/
def Order.new (list_of_items : List FoodItem) (customer : AccountId) (id : Nat) : Order :=
  { list_of_items := list_of_items
    customer := customer
    total_price := totalPrice list_of_items
    paid := false
    order_id := id }

/-- Embeds the `Transfer` event (src/lib.rs lines 53-60). -/
structure TransferEvent where
  from_acct : Option AccountId
  to_acct : Option AccountId
  value : Balance
  deriving DecidableEq

/-- Embeds `enum BurgerShopError` (src/lib.rs lines 82-85). -/
inductive BurgerShopError
  | PaymentError
  | OrderNotCompleted
  deriving DecidableEq

/-- One tag per panic site of the contract: the two caller `assert!`s, the
dead `paid == false` assert, the `checked_mul(...).expect("Overflow!!!")`,
the payment-equality assert, and the `.expect("Order not found")`. -/
inductive PanicKind
  | notCustomer
  | emptyOrder
  | alreadyPaid
  | mulOverflow
  | wrongPayment
  | orderNotFound
  deriving DecidableEq

/-- Result of a message call: normal return `Ok`, error return `Err`, or a
panic (`assert!` / `.expect`) which traps and reverts the call. -/
inductive Outcome
  | ok (order : Order)
  | err (e : BurgerShopError)
  | trap (p : PanicKind)
  deriving DecidableEq

/-- Number of orders a call outcome recorded (1 on `Ok`, else 0). -/
def Outcome.countOk : Outcome → Nat
  | .ok _ => 1
  | _ => 0

/-- Whether a call outcome is a panic (an aborted, fully reverted call). -/
def Outcome.isTrap : Outcome → Bool
  | .trap _ => true
  | _ => false

/-- Embeds the `FileStore` storage struct (src/lib.rs lines 14-17); the
`Mapping` is a total function to `Option Order`. -/
structure FileStore where
  orders : List (Nat × Order)
  orders_mapping : Nat → Option Order

/-- Embeds the constructor `FileStore::new` (src/lib.rs lines 90-99). -/
def FileStore.new : FileStore :=
  { orders := [], orders_mapping := fun _ => none }

/-- A mutating call's observable effects: its outcome, the post-state, the
performed balance transfers `(destination, value)`, and emitted events. -/
structure CallResult where
  outcome : Outcome
  state : FileStore
  transfers : List (AccountId × Balance)
  events : List TransferEvent

/-- Embeds `take_order_and_payment` (src/lib.rs lines 101-157).
Checks happen in source order: the self-order assert, the per-item
`amount > 0` asserts, the (always-passing) `paid == false` assert, the
`checked_mul` overflow panic inside the payment assert, the
payment-equality assert, and finally the `env().transfer` whose success is
the `transfer_ok` parameter.  On transfer success the order is marked
paid, the `Transfer` event is emitted, and the order is inserted into the
map and pushed onto the vector under id `orders.len() as u32`. -/
def take_order_and_payment (st : FileStore) (caller : AccountId)
    (contract_account : AccountId) (transferred_value : Balance)
    (transfer_ok : Bool) (list_of_items : List FoodItem) : CallResult :=
  if caller = contract_account then
    { outcome := .trap .notCustomer, state := st, transfers := [], events := [] }
  else if list_of_items.any (fun item => item.amount == 0) then
    { outcome := .trap .emptyOrder, state := st, transfers := [], events := [] }
  else
    let id := st.orders.length % U32_MOD
    let total_price := totalPrice list_of_items
    let order := { Order.new list_of_items caller id with total_price := total_price }
    if order.paid then
      { outcome := .trap .alreadyPaid, state := st, transfers := [], events := [] }
    else
      let multiply : Balance := 1000000000000
      if U128_MOD ≤ total_price * multiply then
        { outcome := .trap .mulOverflow, state := st, transfers := [], events := [] }
      else if transferred_value = total_price * multiply then
        if transfer_ok then
          let id2 := st.orders.length % U32_MOD
          let order2 := { order with paid := true }
          { outcome := .ok order2
            state :=
              { orders := st.orders ++ [(id2, order2)]
                orders_mapping := fun key =>
                  if key = id2 then some order2 else st.orders_mapping key }
            transfers := [(contract_account, order2.total_price)]
            events := [{ from_acct := some order2.customer
                         to_acct := some contract_account
                         value := order2.total_price }] }
        else
          { outcome := .err .PaymentError, state := st, transfers := [], events := [] }
      else
        { outcome := .trap .wrongPayment, state := st, transfers := [], events := [] }

/-- Embeds `get_single_order` (src/lib.rs lines 159-163); `none` is the
`.expect("Order not found")` panic. -/
def get_single_order (st : FileStore) (id : Nat) : Option Order :=
  st.orders_mapping id

/-- The read-only message together with the (unchanged) post-state. -/
def get_single_order_call (st : FileStore) (id : Nat) : Option Order × FileStore :=
  (get_single_order st id, st)

/-- Embeds `get_orders` (src/lib.rs lines 165-174). -/
def get_orders (st : FileStore) : Option (List (Nat × Order)) :=
  if st.orders.length > 0 then some st.orders else none

/-- States reachable from the constructor, indexed by the number of
successful submissions performed so far.  Read-only messages do not change
the state, so only `take_order_and_payment` steps appear. -/
inductive ReachN : FileStore → Nat → Prop
  | base : ReachN FileStore.new 0
  | step (st : FileStore) (k : Nat) (caller contract_account : AccountId)
      (transferred_value : Balance) (transfer_ok : Bool)
      (list_of_items : List FoodItem) :
      ReachN st k →
      ReachN (take_order_and_payment st caller contract_account
                transferred_value transfer_ok list_of_items).state
        (k + (take_order_and_payment st caller contract_account
                transferred_value transfer_ok list_of_items).outcome.countOk)

/-- States reachable from the constructor by any sequence of calls. -/
def Reach (st : FileStore) : Prop := ∃ k, ReachN st k

/-- The order returned and stored by a successful submission. -/
def okOrder (st : FileStore) (caller : AccountId) (items : List FoodItem) : Order :=
  { list_of_items := items
    customer := caller
    total_price := totalPrice items
    paid := true
    order_id := st.orders.length % U32_MOD }

/-- The full call result of a successful submission. -/
def successResult (st : FileStore) (caller contract_account : AccountId)
    (items : List FoodItem) : CallResult :=
  { outcome := .ok (okOrder st caller items)
    state :=
      { orders := st.orders ++ [(st.orders.length % U32_MOD, okOrder st caller items)]
        orders_mapping := fun key =>
          if key = st.orders.length % U32_MOD then some (okOrder st caller items)
          else st.orders_mapping key }
    transfers := [(contract_account, totalPrice items)]
    events := [{ from_acct := some caller
                 to_acct := some contract_account
                 value := totalPrice items }] }

/-- The guard conditions under which a submission succeeds. -/
def SubmitOk (caller contract_account : AccountId) (transferred_value : Balance)
    (transfer_ok : Bool) (items : List FoodItem) : Prop :=
  caller ≠ contract_account ∧ (∀ it ∈ items, it.amount ≠ 0) ∧
    totalPrice items * 1000000000000 < U128_MOD ∧
    transferred_value = totalPrice items * 1000000000000 ∧ transfer_ok = true

instance (caller contract_account : AccountId) (tv : Balance) (ok : Bool)
    (items : List FoodItem) :
    Decidable (SubmitOk caller contract_account tv ok items) := by
  unfold SubmitOk
  infer_instance

/-- Claim C4's ledger invariant: ids in the vector are exactly 0..n−1 in
insertion order, each stored order's order_id equals its key and is paid,
and the vector and the map contain exactly the same (id, Order) pairs. -/
def LedgerInv (st : FileStore) : Prop :=
  (∀ i, (h : i < st.orders.length) →
    st.orders[i].1 = i ∧ st.orders[i].2.order_id = i ∧
      st.orders[i].2.paid = true ∧ st.orders_mapping i = some st.orders[i].2) ∧
  (∀ id o, st.orders_mapping id = some o →
    ∃ h : id < st.orders.length, st.orders[id] = (id, o))

/-- The map/vector agreement facts that hold in every reachable state,
with no bound on the ledger size. -/
def LookupInv (st : FileStore) : Prop :=
  (∀ id, st.orders_mapping id = none ↔ ∀ o : Order, (id, o) ∉ st.orders) ∧
  (∀ id o, st.orders_mapping id = some o →
    (id, o) ∈ st.orders ∧ o.order_id = id ∧ o.paid = true)

/-- The state after n successful submissions of the empty order by
account 1 against a ledger operating as account 0 with exact payment 0. -/
def pump : Nat → FileStore
  | 0 => FileStore.new
  | n + 1 => (take_order_and_payment (pump n) 1 0 0 true []).state

theorem take_cases (st : FileStore) (caller contract_account : AccountId)
    (tv : Balance) (ok : Bool) (items : List FoodItem) :
    ((take_order_and_payment st caller contract_account tv ok items).state = st ∧
      (take_order_and_payment st caller contract_account tv ok items).outcome.countOk = 0 ∧
      (take_order_and_payment st caller contract_account tv ok items).events = [] ∧
      (∀ o, (take_order_and_payment st caller contract_account tv ok items).outcome ≠ .ok o)) ∨
    (SubmitOk caller contract_account tv ok items ∧
      take_order_and_payment st caller contract_account tv ok items =
        successResult st caller contract_account items) := by
  unfold take_order_and_payment
  dsimp only [Order.new]
  split
  · exact Or.inl ⟨rfl, rfl, rfl, fun o h => by cases h⟩
  · split
    · exact Or.inl ⟨rfl, rfl, rfl, fun o h => by cases h⟩
    · split
      · rename_i hpaid
        exact Bool.noConfusion hpaid
      · split
        · exact Or.inl ⟨rfl, rfl, rfl, fun o h => by cases h⟩
        · split
          · split
            · rename_i h1 h2 _ h5 h4 h6
              refine Or.inr ⟨⟨h1, ?_, ?_, h4, h6⟩, rfl⟩
              · intro it hit hz
                exact h2 (by simp only [List.any_eq_true, beq_iff_eq]; exact ⟨it, hit, hz⟩)
              · exact lt_of_not_le h5
            · exact Or.inl ⟨rfl, rfl, rfl, fun o h => by cases h⟩
          · exact Or.inl ⟨rfl, rfl, rfl, fun o h => by cases h⟩

theorem take_success (st : FileStore) {caller contract_account : AccountId}
    {tv : Balance} {ok : Bool} {items : List FoodItem}
    (h : SubmitOk caller contract_account tv ok items) :
    take_order_and_payment st caller contract_account tv ok items =
      successResult st caller contract_account items := by
  obtain ⟨h1, h2, h3, h4, h5⟩ := h
  subst h4
  subst h5
  have hany : ¬(items.any (fun it => it.amount == 0) = true) := by
    intro hcontra
    obtain ⟨it, hit, hz⟩ := List.any_eq_true.mp hcontra
    exact h2 it hit (by simpa using hz)
  unfold take_order_and_payment successResult okOrder
  dsimp only [Order.new]
  rw [if_neg h1, if_neg hany, if_neg (Bool.false_ne_true), if_neg (not_le.mpr h3),
    if_pos rfl, if_pos rfl]

theorem take_fail (st : FileStore) {caller contract_account : AccountId}
    {tv : Balance} {ok : Bool} {items : List FoodItem}
    (h : ¬ SubmitOk caller contract_account tv ok items) :
    (take_order_and_payment st caller contract_account tv ok items).state = st ∧
      (take_order_and_payment st caller contract_account tv ok items).outcome.countOk = 0 ∧
      (take_order_and_payment st caller contract_account tv ok items).events = [] ∧
      (∀ o, (take_order_and_payment st caller contract_account tv ok items).outcome ≠
        .ok o) := by
  rcases take_cases st caller contract_account tv ok items with hl | ⟨hs, _⟩
  · exact hl
  · exact absurd hs h

theorem take_ok_inv {st : FileStore} {caller contract_account : AccountId}
    {tv : Balance} {ok : Bool} {items : List FoodItem} {o : Order}
    (h : (take_order_and_payment st caller contract_account tv ok items).outcome = .ok o) :
    SubmitOk caller contract_account tv ok items ∧
      take_order_and_payment st caller contract_account tv ok items =
        successResult st caller contract_account items ∧
      o = okOrder st caller items := by
  rcases take_cases st caller contract_account tv ok items with ⟨_, _, _, hno⟩ | ⟨hs, heq⟩
  · exact absurd h (hno o)
  · refine ⟨hs, heq, ?_⟩
    rw [heq] at h
    exact (Outcome.ok.inj h).symm

theorem take_err_iff (st : FileStore) (caller contract_account : AccountId)
    (tv : Balance) (ok : Bool) (items : List FoodItem) :
    (take_order_and_payment st caller contract_account tv ok items).outcome =
        .err .PaymentError ↔
      (caller ≠ contract_account ∧ (∀ it ∈ items, it.amount ≠ 0) ∧
        totalPrice items * 1000000000000 < U128_MOD ∧
        tv = totalPrice items * 1000000000000 ∧ ok = false) := by
  unfold take_order_and_payment
  dsimp only [Order.new]
  split
  · rename_i h1
    exact iff_of_false (fun hh => Outcome.noConfusion hh) (fun hh => hh.1 h1)
  · split
    · rename_i h2
      refine iff_of_false (fun hh => Outcome.noConfusion hh) (fun hh => ?_)
      obtain ⟨it, hit, hz⟩ := List.any_eq_true.mp h2
      exact hh.2.1 it hit (by simpa using hz)
    · split
      · rename_i hpaid
        exact Bool.noConfusion hpaid
      · split
        · rename_i h4
          exact iff_of_false (fun hh => Outcome.noConfusion hh)
            (fun hh => absurd hh.2.2.1 (not_lt.mpr h4))
        · split
          · split
            · rename_i h6
              exact iff_of_false (fun hh => Outcome.noConfusion hh)
                (fun hh => Bool.noConfusion (h6.symm.trans hh.2.2.2.2))
            · rename_i h1 h2 _ h4 h5 h6
              refine iff_of_true rfl ⟨h1, ?_, not_le.mp h4, h5, Bool.not_eq_true _ ▸ h6⟩
              intro it hit hz
              exact h2 (List.any_eq_true.mpr ⟨it, hit, by simpa using hz⟩)
          · rename_i h5
            exact iff_of_false (fun hh => Outcome.noConfusion hh)
              (fun hh => h5 hh.2.2.2.1)

theorem reachN_length {st : FileStore} {k : Nat} (h : ReachN st k) :
    st.orders.length = k := by
  induction h with
  | base => rfl
  | step st' k' caller contract_account tv ok items hprev ih =>
    rcases take_cases st' caller contract_account tv ok items with
      ⟨hst, hcnt, _, _⟩ | ⟨_, heq⟩
    · rw [hst, hcnt, ih]
      exact (Nat.add_zero k').symm
    · rw [heq]
      simp only [successResult, Outcome.countOk, List.length_append,
        List.length_singleton, ih]

theorem totalPrice_foldl_aux (l : List FoodItem) (acc : Nat) :
    l.foldl (fun total item => (total + item.price) % U128_MOD) (acc % U128_MOD) =
      (acc + (l.map FoodItem.price).sum) % U128_MOD := by
  induction l generalizing acc with
  | nil => simp
  | cons it l ih =>
    simp only [List.foldl_cons, List.map_cons, List.sum_cons]
    rw [Nat.mod_add_mod, ih (acc + it.price), Nat.add_assoc]

theorem totalPrice_eq (l : List FoodItem) :
    totalPrice l = (l.map fun it => it.burger_menu.price * it.amount).sum % U128_MOD := by
  unfold totalPrice
  rw [show (0 : Nat) = 0 % U128_MOD from (Nat.zero_mod _).symm, totalPrice_foldl_aux]
  simp only [Nat.zero_add]
  induction l with
  | nil => rfl
  | cons it l ih =>
    simp only [List.map_cons, List.sum_cons]
    rw [Nat.add_mod (FoodItem.price it), Nat.add_mod (it.burger_menu.price * it.amount), ih]
    unfold FoodItem.price
    rw [Nat.mod_mod_of_dvd _ dvd_rfl]

theorem totalPrice_replicate (n : Nat) (it : FoodItem) :
    totalPrice (List.replicate n it) =
      (n * (it.burger_menu.price * it.amount)) % U128_MOD := by
  rw [totalPrice_eq, List.map_replicate, List.sum_replicate, smul_eq_mul]

theorem lookupInv_insert {st : FileStore} (inv : LookupInv st)
    (caller contract_account : AccountId) (items : List FoodItem) :
    LookupInv (successResult st caller contract_account items).state := by
  obtain ⟨ih1, ih2⟩ := inv
  constructor
  · intro id
    simp only [successResult]
    constructor
    · intro hnone o hmem
      by_cases hcase : id = st.orders.length % U32_MOD
      · rw [if_pos hcase] at hnone
        cases hnone
      · rw [if_neg hcase] at hnone
        rcases List.mem_append.mp hmem with hm | hm
        · exact (ih1 id).mp hnone o hm
        · exact hcase (congrArg Prod.fst (List.mem_singleton.mp hm))
    · intro hall
      have hne : id ≠ st.orders.length % U32_MOD := by
        intro hcontra
        exact hall (okOrder st caller items)
          (hcontra ▸ List.mem_append_right _ (List.mem_singleton.mpr rfl))
      rw [if_neg hne]
      exact (ih1 id).mpr (fun o hm => hall o (List.mem_append_left _ hm))
  · intro id o hsome
    simp only [successResult] at hsome ⊢
    by_cases hcase : id = st.orders.length % U32_MOD
    · rw [if_pos hcase] at hsome
      have ho : okOrder st caller items = o := Option.some.inj hsome
      subst ho
      subst hcase
      exact ⟨List.mem_append_right _ (List.mem_singleton.mpr rfl), rfl, rfl⟩
    · rw [if_neg hcase] at hsome
      obtain ⟨hm, hoid, hp⟩ := ih2 id o hsome
      exact ⟨List.mem_append_left _ hm, hoid, hp⟩

theorem reach_lookupInv {st : FileStore} (h : Reach st) : LookupInv st := by
  obtain ⟨k, h⟩ := h
  induction h with
  | base =>
    constructor
    · intro id
      exact iff_of_true rfl (fun o hmem => by cases hmem)
    · intro id o hsome
      cases hsome
  | step st' k' caller contract_account tv ok items hprev ih =>
    rcases take_cases st' caller contract_account tv ok items with ⟨hst, _, _, _⟩ | ⟨_, heq⟩
    · rw [hst]
      exact ih
    · rw [heq]
      exact lookupInv_insert ih caller contract_account items

theorem ledgerInv_insert {st : FileStore} (inv : LedgerInv st)
    (hlen : st.orders.length < U32_MOD)
    (caller contract_account : AccountId) (items : List FoodItem) :
    LedgerInv (successResult st caller contract_account items).state := by
  obtain ⟨i1, i2⟩ := inv
  have hid0 : st.orders.length % U32_MOD = st.orders.length := Nat.mod_eq_of_lt hlen
  constructor
  · intro i h
    simp only [successResult, List.length_append, List.length_singleton] at h ⊢
    rcases Nat.lt_succ_iff_lt_or_eq.mp h with hlt | heqi
    · have hget : (st.orders ++ [(st.orders.length % U32_MOD, okOrder st caller items)])[i] =
          st.orders[i] := List.getElem_append_left hlt
      have hne : i ≠ st.orders.length % U32_MOD := by
        rw [hid0]
        exact Nat.ne_of_lt hlt
      obtain ⟨g1, g2, g3, g4⟩ := i1 i hlt
      rw [hget, if_neg hne]
      exact ⟨g1, g2, g3, g4⟩
    · subst heqi
      have hb2 : st.orders.length <
          (st.orders ++ [(st.orders.length % U32_MOD, okOrder st caller items)]).length := by
        simp
      have hget : (st.orders ++
            [(st.orders.length % U32_MOD, okOrder st caller items)])[st.orders.length] =
          (st.orders.length % U32_MOD, okOrder st caller items) := by
        simp
      rw [hget]
      refine ⟨hid0, hid0, rfl, ?_⟩
      rw [if_pos hid0.symm]
  · intro id o hsome
    simp only [successResult] at hsome ⊢
    by_cases hcase : id = st.orders.length % U32_MOD
    · rw [if_pos hcase] at hsome
      have ho : okOrder st caller items = o := Option.some.inj hsome
      subst ho
      subst hcase
      simp only [hid0]
      exact ⟨by simp, by simp⟩
    · rw [if_neg hcase] at hsome
      obtain ⟨hlt, hget⟩ := i2 id o hsome
      refine ⟨by simp; omega, ?_⟩
      rw [List.getElem_append_left hlt]
      exact hget

theorem reach_ledgerInv {st : FileStore} (h : Reach st)
    (hlen : st.orders.length ≤ U32_MOD) : LedgerInv st := by
  obtain ⟨k, h⟩ := h
  revert hlen
  induction h with
  | base =>
    intro _
    constructor
    · intro i h
      exact absurd h (Nat.not_lt_zero i)
    · intro id o hsome
      cases hsome
  | step st' k' caller contract_account tv ok items hprev ih =>
    intro hlen'
    rcases take_cases st' caller contract_account tv ok items with ⟨hst, _, _, _⟩ | ⟨_, heq⟩
    · rw [hst] at hlen' ⊢
      exact ih hlen'
    · rw [heq] at hlen' ⊢
      have hsz : (successResult st' caller contract_account items).state.orders.length =
          st'.orders.length + 1 := by
        simp [successResult]
      have hlt : st'.orders.length < U32_MOD := by omega
      exact ledgerInv_insert (ih (le_of_lt hlt)) hlt caller contract_account items

theorem submitOk_empty : SubmitOk 1 0 0 true [] := by
  refine ⟨by decide, by simp, by decide, by decide, rfl⟩

theorem pump_step (n : Nat) :
    take_order_and_payment (pump n) 1 0 0 true [] = successResult (pump n) 1 0 [] :=
  take_success (pump n) submitOk_empty

theorem pump_length (n : Nat) : (pump n).orders.length = n := by
  induction n with
  | zero => rfl
  | succ n ih =>
    show (take_order_and_payment (pump n) 1 0 0 true []).state.orders.length = n + 1
    rw [pump_step]
    simp [successResult, ih]

theorem pump_reachN (n : Nat) : ReachN (pump n) n := by
  induction n with
  | zero => exact ReachN.base
  | succ n ih =>
    have h2 := ReachN.step (pump n) n 1 0 0 true [] ih
    rw [pump_step] at h2
    have hcnt : (successResult (pump n) 1 0 []).outcome.countOk = 1 := rfl
    rw [hcnt] at h2
    exact h2

theorem pump_map_fst (n : Nat) :
    (pump n).orders.map Prod.fst = (List.range n).map (fun i => i % U32_MOD) := by
  induction n with
  | zero => rfl
  | succ n ih =>
    show ((take_order_and_payment (pump n) 1 0 0 true []).state.orders.map Prod.fst) = _
    rw [pump_step]
    simp only [successResult, List.map_append, ih, List.range_succ, pump_length]
    rfl

theorem okOrder_order_id (st : FileStore) (caller : AccountId) (items : List FoodItem) :
    (okOrder st caller items).order_id = st.orders.length % U32_MOD := rfl

theorem pump_fst_at (n i : Nat) (h : i < n)
    (hb1 : i < (pump n).orders.length) :
    ((pump n).orders[i]).1 = i % U32_MOD := by
  have hb : i < ((pump n).orders.map Prod.fst).length := by
    rw [List.length_map]
    exact hb1
  have hbr : i < ((List.range n).map (fun j => j % U32_MOD)).length := by
    rw [List.length_map, List.length_range]
    exact h
  have hbr2 : i < (List.range n).length := by
    rw [List.length_range]
    exact h
  have h1 : ((pump n).orders.map Prod.fst)[i] = ((pump n).orders[i]).1 :=
    List.getElem_map Prod.fst
  have h2 : ((pump n).orders.map Prod.fst)[i] =
      ((List.range n).map (fun j => j % U32_MOD))[i] :=
    List.getElem_of_eq (pump_map_fst n) hb
  have h3 : ((List.range n).map (fun j => j % U32_MOD))[i] =
      ((List.range n)[i]) % U32_MOD :=
    List.getElem_map _
  have h4 : (List.range n)[i] = i := List.getElem_range i hbr2
  rw [← h1, h2, h3, h4]

theorem ten_pow_twelve : (10 : Nat) ^ 12 = 1000000000000 := by norm_num

/-- C1: for every order-line sequence with positive quantities the total
price computed by the contract is the mod-2^128 wraparound sum over all
lines of unit price times quantity, the unit prices are CheeseBurger = 12,
ChickenBurger = 15, VeggieBurger = 10, and two CheeseBurgers plus one
VeggieBurger total 34. -/
theorem C1_totalPrice_correct (items : List FoodItem)
    (hpos : ∀ it ∈ items, 0 < it.amount) :
    totalPrice items =
      (items.map fun it => it.burger_menu.price * it.amount).sum % U128_MOD ∧
    BurgerMenu.CheeseBurger.price = 12 ∧ BurgerMenu.ChickenBurger.price = 15 ∧
    BurgerMenu.VeggieBurger.price = 10 ∧
    totalPrice [⟨.CheeseBurger, 2⟩, ⟨.VeggieBurger, 1⟩] = 34 :=
  ⟨totalPrice_eq items, rfl, rfl, rfl, by decide⟩

theorem C1_totalPrice_correct_witness :
    totalPrice [⟨.CheeseBurger, 2⟩, ⟨.VeggieBurger, 1⟩] = 34 :=
  (C1_totalPrice_correct [⟨.CheeseBurger, 2⟩, ⟨.VeggieBurger, 1⟩] (by decide)).2.2.2.2

/-- C2 counterexample: a call whose attached payment (5) differs from
totalPrice × 10^12 (here 0) does not fail with the PaymentError error
value; it aborts through the payment assertion (a panic). -/
theorem C2_paymentError_counterexample :
    (5 : Balance) ≠ totalPrice [] * 10 ^ 12 ∧
    (take_order_and_payment FileStore.new 1 0 5 true []).outcome ≠
      .err .PaymentError ∧
    (take_order_and_payment FileStore.new 1 0 5 true []).outcome =
      .trap .wrongPayment :=
  ⟨by decide, by decide, by decide⟩

/-- C2 (amended): the PaymentError error value is returned exactly when
every earlier check passes (caller differs from the contract account, all
quantities positive, the scaled total does not overflow, the attached
payment equals totalPrice × 10^12) and the internal funds transfer fails;
a payment differing from totalPrice × 10^12 never yields a recorded order
(it aborts by assertion); and every call that records no order leaves the
ledger state completely unchanged. -/
theorem C2_paymentError_amended (st : FileStore) (caller contract_account : AccountId)
    (tv : Balance) (ok : Bool) (items : List FoodItem) :
    ((take_order_and_payment st caller contract_account tv ok items).outcome =
        .err .PaymentError ↔
      caller ≠ contract_account ∧ (∀ it ∈ items, it.amount ≠ 0) ∧
        totalPrice items * 10 ^ 12 < U128_MOD ∧
        tv = totalPrice items * 10 ^ 12 ∧ ok = false) ∧
    (tv ≠ totalPrice items * 10 ^ 12 →
      ∀ o, (take_order_and_payment st caller contract_account tv ok items).outcome ≠
        .ok o) ∧
    ((∀ o, (take_order_and_payment st caller contract_account tv ok items).outcome ≠
        .ok o) →
      (take_order_and_payment st caller contract_account tv ok items).state = st) := by
  rw [ten_pow_twelve]
  refine ⟨take_err_iff st caller contract_account tv ok items, ?_, ?_⟩
  · intro hne o hok
    obtain ⟨hs, _, _⟩ := take_ok_inv hok
    exact hne hs.2.2.2.1
  · intro hno
    rcases take_cases st caller contract_account tv ok items with ⟨hst, _, _, _⟩ | ⟨_, heq⟩
    · exact hst
    · exact absurd (by rw [heq]; rfl) (hno (okOrder st caller items))

theorem C2_paymentError_amended_witness :
    (take_order_and_payment FileStore.new 1 0 0 false []).outcome =
      .err .PaymentError :=
  (C2_paymentError_amended FileStore.new 1 0 0 false []).1.mpr
    ⟨by decide, by simp, by decide, by decide, rfl⟩

/-- C7: a self-order, or any order line with zero quantity, aborts the
whole call as a caller-error assertion with no state change, no transfer
and no event, and the result does not depend on the attached payment or
the transfer outcome (the abort happens before the payment check). -/
theorem C7_caller_error_spec (st : FileStore) (caller contract_account : AccountId)
    (tv : Balance) (ok : Bool) (items : List FoodItem)
    (h : caller = contract_account ∨ ∃ it ∈ items, it.amount = 0) :
    ((take_order_and_payment st caller contract_account tv ok items).outcome =
        .trap .notCustomer ∨
      (take_order_and_payment st caller contract_account tv ok items).outcome =
        .trap .emptyOrder) ∧
    (take_order_and_payment st caller contract_account tv ok items).state = st ∧
    (take_order_and_payment st caller contract_account tv ok items).transfers = [] ∧
    (take_order_and_payment st caller contract_account tv ok items).events = [] ∧
    (∀ tv2 ok2, take_order_and_payment st caller contract_account tv2 ok2 items =
      take_order_and_payment st caller contract_account tv ok items) := by
  by_cases hc : caller = contract_account
  · unfold take_order_and_payment
    rw [if_pos hc]
    exact ⟨Or.inl rfl, rfl, rfl, rfl, fun tv2 ok2 => by rw [if_pos hc]⟩
  · have hany : items.any (fun it => it.amount == 0) = true := by
      rcases h with h | ⟨it, hit, hz⟩
      · exact absurd h hc
      · exact List.any_eq_true.mpr ⟨it, hit, by simpa using hz⟩
    unfold take_order_and_payment
    rw [if_neg hc, if_pos hany]
    exact ⟨Or.inr rfl, rfl, rfl, rfl, fun tv2 ok2 => by rw [if_neg hc, if_pos hany]⟩

theorem C7_caller_error_spec_witness :
    (take_order_and_payment FileStore.new 0 0 5 true []).outcome =
        .trap .notCustomer ∧
    (take_order_and_payment FileStore.new 0 0 5 true []).state = FileStore.new := by
  have h := C7_caller_error_spec FileStore.new 0 0 5 true [] (Or.inl rfl)
  rcases h.1 with h1 | h1
  · exact ⟨h1, h.2.1⟩
  · exact absurd h1 (by decide)

/-- C8 counterexample: a successful submission of two CheeseBurgers and
one VeggieBurger with attached payment 34 × 10^12 performs a transfer of
34 (the unscaled totalPrice) to the operating account, not of the
attached payment 34 × 10^12. -/
theorem C8_transfer_value_counterexample :
    (take_order_and_payment FileStore.new 1 0 34000000000000 true
        [⟨.CheeseBurger, 2⟩, ⟨.VeggieBurger, 1⟩]).outcome.countOk = 1 ∧
    (34000000000000 : Balance) =
      totalPrice [⟨.CheeseBurger, 2⟩, ⟨.VeggieBurger, 1⟩] * 10 ^ 12 ∧
    (take_order_and_payment FileStore.new 1 0 34000000000000 true
        [⟨.CheeseBurger, 2⟩, ⟨.VeggieBurger, 1⟩]).transfers ≠
      [(0, 34000000000000)] ∧
    (take_order_and_payment FileStore.new 1 0 34000000000000 true
        [⟨.CheeseBurger, 2⟩, ⟨.VeggieBurger, 1⟩]).transfers = [(0, 34)] :=
  ⟨by decide, by decide, by decide, by decide⟩

/-- C8 (amended): on a call whose attached payment exactly equals
totalPrice × 10^12 and which passes the caller checks and whose transfer
succeeds, the performed funds transfer has the operating account as its
destination but the unscaled totalPrice — not the attached payment — as
its value. -/
theorem C8_transfer_amended (st : FileStore) {caller contract_account : AccountId}
    {tv : Balance} {items : List FoodItem}
    (h : SubmitOk caller contract_account tv true items) :
    tv = totalPrice items * 10 ^ 12 ∧
    (take_order_and_payment st caller contract_account tv true items).transfers =
      [(contract_account, totalPrice items)] := by
  refine ⟨by rw [ten_pow_twelve]; exact h.2.2.2.1, ?_⟩
  rw [take_success st h]
  rfl

theorem C8_transfer_amended_witness :
    (take_order_and_payment FileStore.new 1 0 34000000000000 true
        [⟨BurgerMenu.CheeseBurger, 2⟩, ⟨BurgerMenu.VeggieBurger, 1⟩]).transfers =
      [(0, 34)] :=
  (C8_transfer_amended FileStore.new (by decide)).2

/-- C9: an empty item list passes the quantity checks vacuously, its total
price is 0, the required attached payment is 0 (any other payment never
records an order), and on success an order with no items and total_price 0
and paid = true is appended to the ledger. -/
theorem C9_empty_order_spec (st : FileStore) (caller contract_account : AccountId)
    (h : caller ≠ contract_account) :
    totalPrice [] = 0 ∧
    (take_order_and_payment st caller contract_account 0 true []).outcome =
      .ok (okOrder st caller []) ∧
    (okOrder st caller []).list_of_items = [] ∧
    (okOrder st caller []).total_price = 0 ∧
    (okOrder st caller []).paid = true ∧
    (take_order_and_payment st caller contract_account 0 true []).state.orders =
      st.orders ++ [(st.orders.length % U32_MOD, okOrder st caller [])] ∧
    (∀ tv, tv ≠ 0 → ∀ ok o,
      (take_order_and_payment st caller contract_account tv ok []).outcome ≠ .ok o) := by
  have hs : SubmitOk caller contract_account 0 true [] :=
    ⟨h, by simp, by decide, by decide, rfl⟩
  rw [take_success st hs]
  refine ⟨rfl, rfl, rfl, rfl, rfl, rfl, ?_⟩
  intro tv htv ok o hok
  obtain ⟨hsub, _, _⟩ := take_ok_inv hok
  exact htv (hsub.2.2.2.1.trans (by decide))

theorem C9_empty_order_spec_witness :
    (take_order_and_payment FileStore.new 1 0 0 true []).outcome =
      .ok (okOrder FileStore.new 1 []) :=
  (C9_empty_order_spec FileStore.new 1 0 (by decide)).2.1

/-- C10: whenever the computed total price exceeds
floor((2^128 − 1) / 10^12), the scaled-payment computation overflows the
checked multiplication (or an earlier assert fires), so the call traps for
every attached payment and transfer outcome, the state is unchanged, and
no order with such a total is ever recorded. -/
theorem C10_checked_mul_overflow_spec (st : FileStore)
    (caller contract_account : AccountId) (tv : Balance) (ok : Bool)
    (items : List FoodItem)
    (h : (U128_MOD - 1) / 10 ^ 12 < totalPrice items) :
    (take_order_and_payment st caller contract_account tv ok items).outcome.isTrap =
      true ∧
    (take_order_and_payment st caller contract_account tv ok items).state = st ∧
    (∀ o, (take_order_and_payment st caller contract_account tv ok items).outcome ≠
      .ok o) := by
  have hge : U128_MOD ≤ totalPrice items * 1000000000000 := by
    have h2 := (Nat.div_lt_iff_lt_mul (by norm_num : (0 : Nat) < 10 ^ 12)).mp h
    rw [ten_pow_twelve] at h2
    have hpos : 0 < U128_MOD := by unfold U128_MOD; positivity
    omega
  unfold take_order_and_payment
  dsimp only [Order.new]
  split
  · exact ⟨rfl, rfl, fun o hh => by cases hh⟩
  · split
    · exact ⟨rfl, rfl, fun o hh => by cases hh⟩
    · split
      · rename_i hpaid
        exact Bool.noConfusion hpaid
      · exact ⟨rfl, rfl, fun o hh => by cases hh⟩

theorem C10_checked_mul_overflow_spec_witness :
    (take_order_and_payment FileStore.new 1 0 0 true
        (List.replicate (10 ^ 26) ⟨BurgerMenu.CheeseBurger, 1⟩)).outcome.isTrap =
      true ∧
    (take_order_and_payment FileStore.new 1 0 0 true
        (List.replicate (10 ^ 26) ⟨BurgerMenu.CheeseBurger, 1⟩)).state =
      FileStore.new := by
  have htp : totalPrice (List.replicate (10 ^ 26) ⟨BurgerMenu.CheeseBurger, 1⟩) =
      12 * 10 ^ 26 := by
    rw [totalPrice_replicate]
    decide
  have h : (U128_MOD - 1) / 10 ^ 12 <
      totalPrice (List.replicate (10 ^ 26) ⟨BurgerMenu.CheeseBurger, 1⟩) := by
    rw [htp]
    decide
  have hmain := C10_checked_mul_overflow_spec FileStore.new 1 0 0 true _ h
  exact ⟨hmain.1, hmain.2.1⟩

/-- C3 counterexample: from the reachable state holding 2^32 orders, a
successful submission assigns the new order id 0 (the length cast to u32
wraps), not the ledger length 2^32. -/
theorem C3_submit_success_counterexample :
    Reach (pump U32_MOD) ∧
    (take_order_and_payment (pump U32_MOD) 1 0 0 true []).outcome =
      .ok (okOrder (pump U32_MOD) 1 []) ∧
    (okOrder (pump U32_MOD) 1 []).order_id = 0 ∧
    (pump U32_MOD).orders.length = U32_MOD ∧
    (0 : Nat) ≠ U32_MOD := by
  refine ⟨⟨U32_MOD, pump_reachN _⟩, ?_, ?_, pump_length _, by decide⟩
  · rw [take_success _ submitOk_empty]
    rfl
  · rw [okOrder_order_id, pump_length, Nat.mod_self]

/-- C3 (amended): every successful submitOrder call grows the ledger by
exactly one, assigns the new order the id (previous ledger length
mod 2^32) — equal to the previous length whenever the ledger held fewer
than 2^32 orders — stores it with paid = true, emits the payment event
{from: payingAccount, to: operatingAccount, value: totalPrice}, and
returns exactly the Order stored at the end of the vector and in the map. -/
theorem C3_submit_success_amended {st : FileStore} {caller contract_account : AccountId}
    {tv : Balance} {ok : Bool} {items : List FoodItem} {o : Order}
    (h : (take_order_and_payment st caller contract_account tv ok items).outcome =
      .ok o) :
    (take_order_and_payment st caller contract_account tv ok items).state.orders.length =
      st.orders.length + 1 ∧
    o.order_id = st.orders.length % U32_MOD ∧
    (st.orders.length < U32_MOD → o.order_id = st.orders.length) ∧
    o.paid = true ∧ o.customer = caller ∧ o.total_price = totalPrice items ∧
    (take_order_and_payment st caller contract_account tv ok items).events =
      [{ from_acct := some caller, to_acct := some contract_account,
         value := totalPrice items }] ∧
    (take_order_and_payment st caller contract_account tv ok items).state.orders.getLast? =
      some (o.order_id, o) ∧
    (take_order_and_payment st caller contract_account tv ok items).state.orders_mapping
      o.order_id = some o := by
  obtain ⟨hs, heq, ho⟩ := take_ok_inv h
  subst ho
  rw [heq]
  refine ⟨by simp [successResult], rfl, fun hlt => Nat.mod_eq_of_lt hlt, rfl, rfl, rfl,
    rfl, ?_, ?_⟩
  · show (st.orders ++ [(st.orders.length % U32_MOD, okOrder st caller items)]).getLast? =
      some ((okOrder st caller items).order_id, okOrder st caller items)
    simp [okOrder]
  · simp [successResult, okOrder]

theorem C3_submit_success_amended_witness :
    (take_order_and_payment FileStore.new 1 0 0 true []).state.orders.length =
      FileStore.new.orders.length + 1 :=
  (C3_submit_success_amended (o := okOrder FileStore.new 1 []) (by decide)).1

/-- C4 counterexample: the reachable state after 2^32 + 1 successful
submissions violates the ledger invariant — the entry at index 2^32
carries id 0, not 2^32, because the id cast to u32 wrapped. -/
theorem C4_invariant_counterexample :
    Reach (pump (U32_MOD + 1)) ∧ ¬ LedgerInv (pump (U32_MOD + 1)) := by
  refine ⟨⟨U32_MOD + 1, pump_reachN _⟩, ?_⟩
  intro hinv
  have hlen := pump_length (U32_MOD + 1)
  have hlt : U32_MOD < (pump (U32_MOD + 1)).orders.length := by omega
  have h1 := (hinv.1 U32_MOD hlt).1
  have hkey := pump_fst_at (U32_MOD + 1) U32_MOD (Nat.lt_succ_self _) hlt
  rw [Nat.mod_self] at hkey
  exact absurd (h1.symm.trans hkey) (by decide)

/-- C4 (amended): in every reachable state holding at most 2^32 orders,
the ordered vector and the id-keyed map contain exactly the same (id,
Order) pairs, the ids in the vector are exactly 0, 1, ..., n−1 in
insertion order, each stored order's order_id equals its key, and every
stored order has paid = true. -/
theorem C4_ledger_invariant_amended {st : FileStore} (h : Reach st)
    (hlen : st.orders.length ≤ U32_MOD) : LedgerInv st :=
  reach_ledgerInv h hlen

theorem C4_ledger_invariant_amended_witness : LedgerInv FileStore.new :=
  C4_ledger_invariant_amended ⟨0, ReachN.base⟩ (Nat.zero_le _)

/-- C5: in every reachable state, getOrder on an id that was never stored
fails with the not-found abort (and only then), getOrder on a stored id
returns an order that is literally one of the stored (id, Order) pairs —
hence with matching id, items, customer and total price — and the call
leaves the ledger state unchanged. -/
theorem C5_get_single_order_spec {st : FileStore} (h : Reach st) (id : Nat) :
    (get_single_order st id = none ↔ ∀ o : Order, (id, o) ∉ st.orders) ∧
    (∀ o, get_single_order st id = some o →
      (id, o) ∈ st.orders ∧ o.order_id = id ∧ o.paid = true) ∧
    get_single_order_call st id = (get_single_order st id, st) := by
  obtain ⟨l1, l2⟩ := reach_lookupInv h
  exact ⟨l1 id, fun o ho => l2 id o ho, rfl⟩

theorem C5_get_single_order_spec_witness :
    get_single_order FileStore.new 0 = none :=
  (C5_get_single_order_spec ⟨0, ReachN.base⟩ 0).1.mpr (fun o hmem => by cases hmem)

/-- C6: listOrders returns the explicit no-orders signal exactly when no
successful submission has ever been recorded; otherwise it returns the
full ordered sequence; and after exactly one successful submission it
returns exactly one (id, Order) pair whose id is 0. -/
theorem C6_get_orders_spec {st : FileStore} {k : Nat} (h : ReachN st k) :
    (get_orders st = none ↔ k = 0) ∧
    (k ≠ 0 → get_orders st = some st.orders) ∧
    (k = 1 → ∃ o : Order, get_orders st = some [(0, o)]) := by
  have hlen := reachN_length h
  refine ⟨?_, ?_, ?_⟩
  · unfold get_orders
    split
    · rename_i hgt
      exact iff_of_false (fun hh => by cases hh) (by omega)
    · rename_i hngt
      exact iff_of_true rfl (by omega)
  · intro hk
    unfold get_orders
    rw [if_pos (by omega)]
  · intro hk1
    have hlen1 : st.orders.length = 1 := by omega
    obtain ⟨a, ha⟩ := List.length_eq_one.mp hlen1
    have hinv := reach_ledgerInv ⟨k, h⟩ (by rw [hlen1]; decide)
    have h0lt : 0 < st.orders.length := by omega
    have hfst := (hinv.1 0 h0lt).1
    have hget : st.orders[0] = a := by simp [ha]
    rw [hget] at hfst
    refine ⟨a.2, ?_⟩
    unfold get_orders
    rw [if_pos (by omega), ha,
      show a = (0, a.2) from Prod.ext hfst rfl]

theorem C6_get_orders_spec_witness :
    get_orders (take_order_and_payment FileStore.new 1 0 0 true []).state ≠ none := by
  have h0 : ReachN (take_order_and_payment FileStore.new 1 0 0 true []).state 1 :=
    ReachN.step FileStore.new 0 1 0 0 true [] ReachN.base
  intro hnone
  exact one_ne_zero ((C6_get_orders_spec h0).1.mp hnone)

end FileStoreContract
